import Mathlib

/-!
Verification of the jira_query request/pagination core.

Shallow embedding of `src/access.rs` and `src/errors.rs` of the
`jira_query` crate: the URL builder (`JiraInstance::path`,
`Method::url_fragment`), the pagination controller
(`JiraInstance::issues`, `JiraInstance::search`,
`JiraInstance::paginated_issues`) and the single-chunk fetch
(`JiraInstance::chunk_of_issues`).

Network I/O is abstracted by a `Server` oracle mapping a logical call
(request method plus `startAt` offset) to the decoded response of that
one HTTP GET — either a list of issues, or a transport/decode error.
Given a fixed `JiraInstance`, the method and offset determine the
requested URL exactly (via `JiraInstance.path`), so this keying loses
no information. Each operation returns, beside its result, the trace
of calls it issued, so claims about call counts, call order and
offsets are statements about the trace.

The Rust `loop` in `paginated_issues` has no structural bound, so it
is embedded with explicit fuel: a result of `none` means the loop was
still running after `fuel` iterations. Offsets are `u32` in the
source; they are modelled as `Nat` because no claim concerns overflow,
and all runs considered stay far below `2^32`.
-/

namespace JiraQuery

/-- Issues are opaque to the core: it only counts them and concatenates
lists of them. An issue is modelled as a bare identifier. -/
structure Issue where
  id : Nat
deriving DecidableEq, Repr

/-- The `Auth` enum from `src/access.rs`: the authentication method. -/
inductive Auth where
  | anonymous
  | apiKey (token : String)
  | basic (user : String) (password : String)
deriving DecidableEq, Repr

/-- The `Pagination` enum from `src/access.rs`. -/
inductive Pagination where
  | default
  | maxResults (n : Nat)
  | chunkSize (n : Nat)
deriving DecidableEq, Repr

/-- The `Method` enum from `src/access.rs`: the logical target of one call. -/
inductive Method where
  | key (id : String)
  | keys (ids : List String)
  | search (query : String)
deriving DecidableEq, Repr

/-- The `JiraQueryError` enum from `src/errors.rs`, with the foreign
transport/decode error (`restson::Error` / `reqwest::Error`) kept
opaque as a `Nat` code: the core never inspects it, only propagates
it. -/
inductive JiraQueryError where
  | missingIssues (keys : List String)
  | noIssues
  | rest (code : Nat)
deriving DecidableEq, Repr

/-- The `JiraInstance` struct from `src/access.rs` (without the `reqwest::Client`
field, which is part of the abstracted transport). -/
structure JiraInstance where
  host : String
  auth : Auth
  pagination : Pagination

/-- The function `Method::url_fragment` from `src/access.rs`:
`format!("issue/{id}")`, `format!("search?jql=id%20in%20({})", ids.join(","))`,
`format!("search?jql={query}")`. Rust's `[String]::join(",")` is
`String.intercalate ","`. -/
def Method.url_fragment : Method → String
  | .key id => "issue/" ++ id
  | .keys ids => "search?jql=id%20in%20(" ++ String.intercalate "," ids ++ ")"
  | .search query => "search?jql=" ++ query

/-- The `max_results` fragment computed in `JiraInstance::path`
(`src/access.rs`): empty under `Default`, `&maxResults={n}` under
both `MaxResults(n)` and `ChunkSize(n)` — the source matches the two
numeric variants with one arm. -/
def maxResultsFragment : Pagination → String
  | .default => ""
  | .maxResults n => "&maxResults=" ++ toString n
  | .chunkSize n => "&maxResults=" ++ toString n

/-- The `start_at` fragment computed in `JiraInstance::path`
(`src/access.rs`): empty for `Method::Key` (the source comments that
`startAt` breaks the by-key REST query), `&startAt={start_at}` for
`Keys` and `Search`. -/
def startAtFragment (method : Method) (start_at : Nat) : String :=
  match method with
  | .key _ => ""
  | .keys _ => "&startAt=" ++ toString start_at
  | .search _ => "&startAt=" ++ toString start_at

/-- The function `JiraInstance::path` from `src/access.rs`: the complete absolute
URL for one call, `format!("{}/{}/{}{}{}", host, REST_PREFIX,
fragment, max_results, start_at)` with `REST_PREFIX = "rest/api/2"`. -/
def JiraInstance.path (self : JiraInstance) (method : Method) (start_at : Nat) : String :=
  self.host ++ "/" ++ "rest/api/2" ++ "/" ++ method.url_fragment
    ++ maxResultsFragment self.pagination ++ startAtFragment method start_at

/-- The transport/decode oracle: the decoded outcome of the one HTTP
GET that `chunk_of_issues` performs for a given method and `startAt`
offset (`JqlResults.issues` on success, a transport or decode error
code on failure). -/
def Server : Type := Method → Nat → Except Nat (List Issue)

/-- One issued HTTP call, identified by its logical method and
`startAt` offset (which, for a fixed instance, determine the URL via
`JiraInstance.path`). -/
structure Call where
  method : Method
  offset : Nat
deriving DecidableEq, Repr

/-- The result part of `JiraInstance::chunk_of_issues`: perform the
single GET and either return the decoded `results.issues` or
propagate the transport/decode error (the `?` conversions into
`JiraQueryError::Rest`). -/
def fetchChunk (server : Server) (method : Method) (start_at : Nat) :
    Except JiraQueryError (List Issue) :=
  match server method start_at with
  | .ok issues => .ok issues
  | .error e => .error (.rest e)

/-- The function `JiraInstance::chunk_of_issues` from `src/access.rs`: one call,
with its (singleton) call trace. -/
def chunk_of_issues (server : Server) (method : Method) (start_at : Nat) :
    Except JiraQueryError (List Issue) × List Call :=
  (fetchChunk server method start_at, [⟨method, start_at⟩])

/-- The `loop` body of `JiraInstance::paginated_issues` from
`src/access.rs`, with explicit fuel. State per iteration: `start_at`
and the accumulator `all_issues`. Each iteration calls
`chunk_of_issues` at `start_at`; on error the whole loop aborts with
that error (the `?`); otherwise the page is appended, and if
`page_size < chunk_size` the loop breaks returning the accumulator,
else `start_at += chunk_size` and the loop continues. A first
component of `none` means the loop had not finished after `fuel`
iterations; the second component is the trace of calls issued. -/
def paginatedLoop (server : Server) (method : Method) (chunk_size : Nat) :
    Nat → Nat → List Issue → Option (Except JiraQueryError (List Issue)) × List Call
  | 0, _, _ => (none, [])
  | fuel + 1, start_at, all_issues =>
    match fetchChunk server method start_at with
    | .error e => (some (.error e), [⟨method, start_at⟩])
    | .ok chunk_issues =>
      let page_size := chunk_issues.length
      let acc := all_issues ++ chunk_issues
      if page_size < chunk_size then
        (some (.ok acc), [⟨method, start_at⟩])
      else
        let next := paginatedLoop server method chunk_size fuel (start_at + chunk_size) acc
        (next.1, ⟨method, start_at⟩ :: next.2)

/-- The function `JiraInstance::paginated_issues` from `src/access.rs`:
`all_issues = []`, `start_at = 0`, then the loop. -/
def paginated_issues (server : Server) (method : Method) (chunk_size : Nat) (fuel : Nat) :
    Option (Except JiraQueryError (List Issue)) × List Call :=
  paginatedLoop server method chunk_size fuel 0 []

/-- The function `JiraInstance::issues` from `src/access.rs`: empty key list
short-circuits to `Ok(vec![])`; under `ChunkSize` delegate to
`paginated_issues` with `Method::Keys(keys)`; otherwise one
`chunk_of_issues` call at offset 0, turning an empty success into
`JiraQueryError::NoIssues`. -/
def JiraInstance.issues (self : JiraInstance) (server : Server) (keys : List String)
    (fuel : Nat) : Option (Except JiraQueryError (List Issue)) × List Call :=
  if keys.isEmpty then
    (some (.ok []), [])
  else
    let method := Method.keys keys
    match self.pagination with
    | .chunkSize chunk_size => paginated_issues server method chunk_size fuel
    | _ =>
      let chunk := chunk_of_issues server method 0
      match chunk.1 with
      | .error e => (some (.error e), chunk.2)
      | .ok issues =>
        if issues.isEmpty then
          (some (.error .noIssues), chunk.2)
        else
          (some (.ok issues), chunk.2)

/-- The function `JiraInstance::search` from `src/access.rs`: under `ChunkSize`
delegate to `paginated_issues` with `Method::Search(query)`;
otherwise one `chunk_of_issues` call at offset 0, returned as-is
(an empty list included). -/
def JiraInstance.search (self : JiraInstance) (server : Server) (query : String)
    (fuel : Nat) : Option (Except JiraQueryError (List Issue)) × List Call :=
  let method := Method.search query
  match self.pagination with
  | .chunkSize chunk_size => paginated_issues server method chunk_size fuel
  | _ =>
    let chunk := chunk_of_issues server method 0
    match chunk.1 with
    | .error e => (some (.error e), chunk.2)
    | .ok issues => (some (.ok issues), chunk.2)

/-- The page a server returns for one call (empty if the call
errors); used to state that a successful paginated run returns the
concatenation of its pages in call order. -/
def pageAt (server : Server) (call : Call) : List Issue :=
  match server call.method call.offset with
  | .ok page => page
  | .error _ => []

/-- An upper-case hexadecimal digit, for the spec-side escape
function. -/
def hexDigit (n : Nat) : Char :=
  if n < 10 then Char.ofNat (Char.toNat '0' + n) else Char.ofNat (Char.toNat 'A' + (n - 10))

/-- Spec-side definition, following the spec's words "ids must be
URL-escaped individually": standard percent-escaping of one ASCII
character — unreserved characters (alphanumeric and `-._~`) kept,
anything else replaced by `%HH`. In particular a space becomes
`%20`, which is the only case the comparison with the source needs. -/
def specUrlEscapeChar (ch : Char) : String :=
  if ch.isAlphanum || ch = '-' || ch = '.' || ch = '_' || ch = '~' then
    String.singleton ch
  else
    "%" ++ String.singleton (hexDigit (ch.toNat / 16)) ++ String.singleton (hexDigit (ch.toNat % 16))

/-- Spec-side definition: percent-escaping of a whole key, character
by character. -/
def specUrlEscape (s : String) : String :=
  String.join (s.toList.map specUrlEscapeChar)

end JiraQuery

namespace JiraQuery

/-! Behaviour of the pagination loop.

Step equations for `paginatedLoop`, then the four facts every
pagination claim reduces to: each call in the trace carries the same
method and the offsets `start, start + c, start + 2c, …`; a
successful run returns the accumulator followed by the pages of its
calls in order; the loop never fabricates `NoIssues`; and a failing
call is the last call of the trace and its error is the result. -/

theorem paginatedLoop_succ_err (server : Server) (m : Method) (c fuel start_at : Nat)
    (acc : List Issue) (e : Nat) (hs : server m start_at = .error e) :
    paginatedLoop server m c (fuel + 1) start_at acc =
      (some (.error (.rest e)), [⟨m, start_at⟩]) := by
  simp [paginatedLoop, fetchChunk, hs]

theorem paginatedLoop_succ_break (server : Server) (m : Method) (c fuel start_at : Nat)
    (acc page : List Issue) (hs : server m start_at = .ok page) (hlt : page.length < c) :
    paginatedLoop server m c (fuel + 1) start_at acc =
      (some (.ok (acc ++ page)), [⟨m, start_at⟩]) := by
  simp [paginatedLoop, fetchChunk, hs, hlt]

theorem paginatedLoop_succ_cont (server : Server) (m : Method) (c fuel start_at : Nat)
    (acc page : List Issue) (hs : server m start_at = .ok page) (hge : ¬ page.length < c) :
    paginatedLoop server m c (fuel + 1) start_at acc =
      ((paginatedLoop server m c fuel (start_at + c) (acc ++ page)).1,
        ⟨m, start_at⟩ :: (paginatedLoop server m c fuel (start_at + c) (acc ++ page)).2) := by
  simp [paginatedLoop, fetchChunk, hs, hge]

/-- Every call of a paginated run carries the loop's method, and the
`i`-th call (0-based) is at offset `start_at + i * chunk_size`:
offsets advance by exactly the chunk size from the starting offset. -/
theorem paginatedLoop_call_eq (server : Server) (m : Method) (c : Nat) :
    ∀ (fuel start_at : Nat) (acc : List Issue) (i : Nat) (call : Call),
      (paginatedLoop server m c fuel start_at acc).2.get? i = some call →
      call = ⟨m, start_at + i * c⟩ := by
  intro fuel
  induction fuel with
  | zero =>
    intro st acc i call h
    simp [paginatedLoop] at h
  | succ fuel ih =>
    intro st acc i call h
    cases hs : server m st with
    | error e =>
      rw [paginatedLoop_succ_err server m c fuel st acc e hs] at h
      cases i with
      | zero =>
        simp at h
        simp [← h]
      | succ j =>
        simp at h
    | ok page =>
      by_cases hlt : page.length < c
      · rw [paginatedLoop_succ_break server m c fuel st acc page hs hlt] at h
        cases i with
        | zero =>
          simp at h
          simp [← h]
        | succ j =>
          simp at h
      · rw [paginatedLoop_succ_cont server m c fuel st acc page hs hlt] at h
        cases i with
        | zero =>
          simp at h
          simp [← h]
        | succ j =>
          rw [List.get?_cons_succ] at h
          have hcall := ih (st + c) (acc ++ page) j call h
          subst hcall
          have : st + c + j * c = st + (j + 1) * c := by ring
          simp [this]

/-- A successful paginated run returns the starting accumulator
followed by the pages of its calls, concatenated in call order. -/
theorem paginatedLoop_ok_join (server : Server) (m : Method) (c : Nat) :
    ∀ (fuel start_at : Nat) (acc : List Issue) (l : List Issue),
      (paginatedLoop server m c fuel start_at acc).1 = some (.ok l) →
      l = acc ++ ((paginatedLoop server m c fuel start_at acc).2.map (pageAt server)).flatten := by
  intro fuel
  induction fuel with
  | zero =>
    intro st acc l h
    simp [paginatedLoop] at h
  | succ fuel ih =>
    intro st acc l h
    cases hs : server m st with
    | error e =>
      rw [paginatedLoop_succ_err server m c fuel st acc e hs] at h
      simp at h
    | ok page =>
      by_cases hlt : page.length < c
      · rw [paginatedLoop_succ_break server m c fuel st acc page hs hlt] at h ⊢
        simp at h
        simp [← h, pageAt, hs]
      · rw [paginatedLoop_succ_cont server m c fuel st acc page hs hlt] at h ⊢
        have := ih (st + c) (acc ++ page) l h
        simp [this, pageAt, hs]

/-- The paginated loop never fabricates `NoIssues`: its only error
results are propagated transport/decode errors. -/
theorem paginatedLoop_ne_noIssues (server : Server) (m : Method) (c : Nat) :
    ∀ (fuel start_at : Nat) (acc : List Issue),
      (paginatedLoop server m c fuel start_at acc).1 ≠ some (.error .noIssues) := by
  intro fuel
  induction fuel with
  | zero =>
    intro st acc
    simp [paginatedLoop]
  | succ fuel ih =>
    intro st acc
    cases hs : server m st with
    | error e =>
      rw [paginatedLoop_succ_err server m c fuel st acc e hs]
      simp
    | ok page =>
      by_cases hlt : page.length < c
      · rw [paginatedLoop_succ_break server m c fuel st acc page hs hlt]
        simp
      · rw [paginatedLoop_succ_cont server m c fuel st acc page hs hlt]
        exact ih (st + c) (acc ++ page)

/-- If the call recorded at position `i` of a paginated run's trace
fails on the server, then it is the last call of the trace (no further
call is issued) and the run's result is exactly that propagated error
(no partial accumulation is returned). -/
theorem paginatedLoop_error_last (server : Server) (m : Method) (c : Nat) :
    ∀ (fuel start_at : Nat) (acc : List Issue) (i : Nat) (call : Call) (e : Nat),
      (paginatedLoop server m c fuel start_at acc).2.get? i = some call →
      server call.method call.offset = .error e →
      i + 1 = (paginatedLoop server m c fuel start_at acc).2.length ∧
        (paginatedLoop server m c fuel start_at acc).1 = some (.error (.rest e)) := by
  intro fuel
  induction fuel with
  | zero =>
    intro st acc i call e h _
    simp [paginatedLoop] at h
  | succ fuel ih =>
    intro st acc i call e h hcall
    cases hs : server m st with
    | error e' =>
      rw [paginatedLoop_succ_err server m c fuel st acc e' hs] at h ⊢
      cases i with
      | zero =>
        simp at h
        rw [← h] at hcall
        simp at hcall
        rw [hs] at hcall
        simp at hcall
        simp [hcall]
      | succ j =>
        simp at h
    | ok page =>
      by_cases hlt : page.length < c
      · rw [paginatedLoop_succ_break server m c fuel st acc page hs hlt] at h ⊢
        cases i with
        | zero =>
          simp at h
          rw [← h] at hcall
          simp at hcall
          rw [hs] at hcall
          simp at hcall
        | succ j =>
          simp at h
      · rw [paginatedLoop_succ_cont server m c fuel st acc page hs hlt] at h ⊢
        cases i with
        | zero =>
          simp at h
          rw [← h] at hcall
          simp at hcall
          rw [hs] at hcall
          simp at hcall
        | succ j =>
          rw [List.get?_cons_succ] at h
          have hrec := ih (st + c) (acc ++ page) j call e h hcall
          constructor
          · simp [← hrec.1]
          · exact hrec.2

/-- With a zero chunk size and a server whose every answer decodes
successfully, the paginated loop never finishes: after any number
`fuel` of iterations it has issued `fuel` calls and is still
running. -/
theorem paginatedLoop_zero_chunk (server : Server) (m : Method)
    (hok : ∀ start_at, ∃ page, server m start_at = .ok page) :
    ∀ (fuel start_at : Nat) (acc : List Issue),
      (paginatedLoop server m 0 fuel start_at acc).1 = none ∧
        (paginatedLoop server m 0 fuel start_at acc).2.length = fuel := by
  intro fuel
  induction fuel with
  | zero =>
    intro st acc
    simp [paginatedLoop]
  | succ fuel ih =>
    intro st acc
    obtain ⟨page, hs⟩ := hok st
    have hge : ¬ page.length < 0 := by omega
    rw [paginatedLoop_succ_cont server m 0 fuel st acc page hs hge]
    have hrec := ih (st + 0) (acc ++ page)
    rw [Nat.add_zero] at hrec
    simp [hrec.1, hrec.2]

/-- If the call recorded at position `i` of a paginated run's trace
got back a page strictly smaller than the chunk size, the loop
stopped there: that call is the last one of the trace. -/
theorem paginatedLoop_short_page_last (server : Server) (m : Method) (c : Nat) :
    ∀ (fuel start_at : Nat) (acc : List Issue) (i : Nat) (call : Call) (page : List Issue),
      (paginatedLoop server m c fuel start_at acc).2.get? i = some call →
      server m call.offset = .ok page → page.length < c →
      i + 1 = (paginatedLoop server m c fuel start_at acc).2.length := by
  intro fuel
  induction fuel with
  | zero =>
    intro st acc i call page h _ _
    simp [paginatedLoop] at h
  | succ fuel ih =>
    intro st acc i call page h hpage hshort
    cases hs : server m st with
    | error e =>
      rw [paginatedLoop_succ_err server m c fuel st acc e hs] at h ⊢
      cases i with
      | zero =>
        simp
      | succ j =>
        simp at h
    | ok p =>
      by_cases hlt : p.length < c
      · rw [paginatedLoop_succ_break server m c fuel st acc p hs hlt] at h ⊢
        cases i with
        | zero =>
          simp
        | succ j =>
          simp at h
      · rw [paginatedLoop_succ_cont server m c fuel st acc p hs hlt] at h ⊢
        cases i with
        | zero =>
          simp at h
          rw [← h] at hpage
          simp at hpage
          rw [hs] at hpage
          simp at hpage
          rw [hpage] at hlt
          exact absurd hshort hlt
        | succ j =>
          rw [List.get?_cons_succ] at h
          have hrec := ih (st + c) (acc ++ p) j call page h hpage hshort
          simp [← hrec]

/-- Indexing into a one-element trace: the index is 0 and the entry
is that element. -/
theorem singleton_get?_eq {α : Type} (a : α) (i : Nat) (x : α)
    (h : [a].get? i = some x) : i = 0 ∧ x = a := by
  cases i with
  | zero =>
    simp at h
    exact ⟨rfl, h.symm⟩
  | succ j =>
    simp at h

end JiraQuery

namespace JiraQuery

/-- Claim C5: For every pagination policy (any instance) and any server,
`issues` with an empty key list returns `Ok([])` and issues no call. -/
theorem C5_issues_empty_keys (inst : JiraInstance) (server : Server) (fuel : Nat) :
    inst.issues server [] fuel = (some (.ok []), []) := by
  simp [JiraInstance.issues]

/-- Claim C1, counterexample: With keys `["A", "B"]` under
`ChunkSize(1)` and a server that hands out the two matching issues
one per page, the claim's predicted behaviour — exactly
`ceil(2/1) = 2` calls, each at offset 0 and each carrying one
singleton chunk of the split key list — is false of the code: the
code issues three calls, all carrying the full key list
`Keys(["A", "B"])`, at offsets 0, 1 and 2. -/
theorem C1_counterexample :
    ¬ ((((JiraInstance.mk "https://jira.example.com" .anonymous (.chunkSize 1)).issues
            (fun _ off => if off = 0 then .ok [⟨1⟩] else if off = 1 then .ok [⟨2⟩] else .ok [])
            ["A", "B"] 9).2.length = 2) ∧
        ∀ call ∈ ((JiraInstance.mk "https://jira.example.com" .anonymous (.chunkSize 1)).issues
            (fun _ off => if off = 0 then .ok [⟨1⟩] else if off = 1 then .ok [⟨2⟩] else .ok [])
            ["A", "B"] 9).2,
          call.offset = 0 ∧ (call.method = .keys ["A"] ∨ call.method = .keys ["B"])) := by
  decide

/-- Claim C1, amended: Under `ChunkSize(c)` with a non-empty key list,
`issues` does not split the key list: every issued call carries the
full `Keys(keys)` method, the `i`-th call is made at offset `i * c`
(so the calls run at offsets `0, c, 2c, …` in order, server-side
paging over the one query), and a successful run returns the
concatenation of the returned pages in call order. The number of
calls is decided by the first page smaller than `c`, not by
`ceil(len(keys)/c)`. -/
theorem C1_chunked_issues_full_keylist (inst : JiraInstance) (server : Server)
    (keys : List String) (fuel c : Nat)
    (hpag : inst.pagination = .chunkSize c) (hkeys : keys ≠ []) :
    (∀ (i : Nat) (call : Call),
        (inst.issues server keys fuel).2.get? i = some call →
        call = ⟨.keys keys, i * c⟩) ∧
    (∀ l, (inst.issues server keys fuel).1 = some (.ok l) →
        l = ((inst.issues server keys fuel).2.map (pageAt server)).flatten) := by
  have hred : inst.issues server keys fuel = paginatedLoop server (.keys keys) c fuel 0 [] := by
    simp [JiraInstance.issues, paginated_issues, hpag, hkeys]
  rw [hred]
  constructor
  · intro i call h
    have hcall := paginatedLoop_call_eq server (.keys keys) c fuel 0 [] i call h
    simpa using hcall
  · intro l h
    have hjoin := paginatedLoop_ok_join server (.keys keys) c fuel 0 [] l h
    simpa using hjoin

/-- Claim C1, witness: A concrete run of the amended statement:
`ChunkSize(2)`, keys `["A"]`, a server answering every call with an
empty page. The lone call is `Keys(["A"])` at offset `0 * 2`, and the
successful empty result is the flattening of its pages. -/
theorem C1_chunked_issues_full_keylist_witness :
    (((JiraInstance.mk "h" .anonymous (.chunkSize 2)).issues (fun _ _ => .ok [])
        ["A"] 3).2.get? 0 = some ⟨.keys ["A"], 0⟩) ∧
    (⟨Method.keys ["A"], 0 * 2⟩ : Call) = ⟨.keys ["A"], 0⟩ ∧
    ([] : List Issue) =
      (((JiraInstance.mk "h" .anonymous (.chunkSize 2)).issues (fun _ _ => .ok [])
          ["A"] 3).2.map (pageAt (fun _ _ => .ok []))).flatten := by
  refine ⟨by decide, ?_, ?_⟩
  · exact C1_chunked_issues_full_keylist (JiraInstance.mk "h" .anonymous (.chunkSize 2))
      (fun _ _ => .ok []) ["A"] 3 2 rfl (by decide) |>.1 0 ⟨.keys ["A"], 0⟩ (by decide)
  · exact C1_chunked_issues_full_keylist (JiraInstance.mk "h" .anonymous (.chunkSize 2))
      (fun _ _ => .ok []) ["A"] 3 2 rfl (by decide) |>.2 [] rfl

/-- Claim C8, code bug: Nothing in the code rejects `ChunkSize(0)`,
and it does cause an infinite loop: with zero chunk size and a server
whose every call succeeds (here: always an empty page), `issues` on a
non-empty key list never returns — after any number `fuel` of loop
iterations it has issued `fuel` calls and is still running, because
`page_size < chunk_size` can never hold for `chunk_size = 0`. -/
theorem C8_zero_chunk_size_loops_forever (host : String) (auth : Auth) (fuel : Nat) :
    ((JiraInstance.mk host auth (.chunkSize 0)).issues (fun _ _ => .ok []) ["A"] fuel).1 =
        none ∧
    ((JiraInstance.mk host auth (.chunkSize 0)).issues (fun _ _ => .ok []) ["A"] fuel).2.length =
        fuel := by
  have hred : (JiraInstance.mk host auth (.chunkSize 0)).issues (fun _ _ => .ok []) ["A"] fuel =
      paginatedLoop (fun _ _ => .ok []) (.keys ["A"]) 0 fuel 0 [] := by
    simp [JiraInstance.issues, paginated_issues]
  rw [hred]
  exact paginatedLoop_zero_chunk (fun _ _ => .ok []) (.keys ["A"])
    (fun _ => ⟨[], rfl⟩) fuel 0 []

/-- Claim C10: Under `ChunkSize(c)`, `issues` never returns
`NoIssuesError`: its errors are only propagated transport/decode
errors. Moreover, with a positive chunk size and at least one loop
iteration available, a server that successfully answers the first
call with an empty page makes `issues` return an empty success —
not an error. -/
theorem C10_chunked_issues_never_noIssues (inst : JiraInstance) (server : Server)
    (keys : List String) (fuel c : Nat) (hpag : inst.pagination = .chunkSize c) :
    (inst.issues server keys fuel).1 ≠ some (.error .noIssues) ∧
    (keys ≠ [] → 0 < c → 0 < fuel → server (.keys keys) 0 = .ok [] →
      (inst.issues server keys fuel).1 = some (.ok [])) := by
  constructor
  · by_cases hk : keys = []
    · subst hk
      simp [JiraInstance.issues]
    · have hred : inst.issues server keys fuel =
          paginatedLoop server (.keys keys) c fuel 0 [] := by
        simp [JiraInstance.issues, paginated_issues, hpag, hk]
      rw [hred]
      exact paginatedLoop_ne_noIssues server (.keys keys) c fuel 0 []
  · intro hk hc hfuel hfirst
    have hred : inst.issues server keys fuel =
        paginatedLoop server (.keys keys) c fuel 0 [] := by
      simp [JiraInstance.issues, paginated_issues, hpag, hk]
    obtain ⟨f, rfl⟩ : ∃ f, fuel = f + 1 := ⟨fuel - 1, by omega⟩
    rw [hred, paginatedLoop_succ_break server (.keys keys) c f 0 [] [] hfirst (by simpa)]
    simp

/-- Claim C2, counterexample: Under `MaxResults(10)`, the URL built
for the single-key request `Key("X-1")` does contain a page-size
(`maxResults`) parameter, contrary to the claim that it contains
neither parameter for every pagination policy. (The `startAt` half of
the claim is true; see the amended theorem.) -/
theorem C2_counterexample :
    (JiraInstance.mk "https://jira.example.com" .anonymous (.maxResults 10)).path
        (.key "X-1") 5 =
      "https://jira.example.com/rest/api/2/issue/X-1&maxResults=10" ∧
    "maxResults".toList <:+:
      ((JiraInstance.mk "https://jira.example.com" .anonymous (.maxResults 10)).path
        (.key "X-1") 5).toList := by
  exact ⟨rfl, by decide⟩

/-- Claim C2, amended: For every pagination policy and every offset,
the URL built for a single-key request `Key(id)` is independent of
the offset and carries no start-offset fragment — it is exactly the
single-issue endpoint plus the page-size fragment of the policy,
which is empty under `Default` but `&maxResults=n` under
`MaxResults(n)` and `ChunkSize(n)`: the source computes `max_results`
from the pagination policy alone, regardless of the request method. -/
theorem C2_key_url_no_startAt (inst : JiraInstance) (id : String) (off : Nat) :
    inst.path (.key id) off = inst.path (.key id) 0 ∧
    inst.path (.key id) off =
      inst.host ++ "/" ++ "rest/api/2" ++ "/" ++ ("issue/" ++ id)
        ++ maxResultsFragment inst.pagination := by
  constructor <;>
    simp [JiraInstance.path, startAtFragment, Method.url_fragment]

/-- Claim C3, counterexample: The key `"A B"` is inserted into the
`Keys` URL verbatim, with its raw space, not percent-escaped: the
produced fragment differs from the one the claim predicts (each key
escaped by `specUrlEscape` — which sends a space to `%20` — before
joining with a comma). -/
theorem C3_counterexample :
    Method.url_fragment (.keys ["A B"]) = "search?jql=id%20in%20(A B)" ∧
    Method.url_fragment (.keys ["A B"]) ≠
      "search?jql=id%20in%20(" ++
        String.intercalate "," (["A B"].map specUrlEscape) ++ ")" ∧
    specUrlEscape "A B" = "A%20B" := by
  exact ⟨rfl, by decide, by decide⟩

/-- Claim C3, amended: The `Keys(ids)` URL encodes the query as
`id in (k1,k2,...)` with the keys joined by a literal comma but
inserted verbatim — no per-key percent-escaping is applied; only the
fixed `id in (` framing text is pre-encoded as `id%20in%20(`. -/
theorem C3_keys_joined_verbatim (ids : List String) (a b : String) :
    Method.url_fragment (.keys ids) =
      "search?jql=id%20in%20(" ++ String.intercalate "," ids ++ ")" ∧
    Method.url_fragment (.keys [a]) = "search?jql=id%20in%20(" ++ a ++ ")" ∧
    Method.url_fragment (.keys [a, b]) =
      "search?jql=id%20in%20(" ++ a ++ "," ++ b ++ ")" := by
  refine ⟨rfl, rfl, ?_⟩
  show "search?jql=id%20in%20(" ++ ((a ++ ",") ++ b) ++ ")" = _
  simp [String.append_assoc]

/-- Claim C6: Under `Default` or `MaxResults(n)`, `issues` with a
non-empty key list makes exactly one `Keys(keys)` call at offset 0;
if that call succeeds with zero issues the operation fails with
`NoIssuesError`, if it succeeds with one or more issues those issues
are returned, and a failing call propagates its error. -/
theorem C6_nonchunked_issues_noIssues (inst : JiraInstance) (server : Server)
    (keys : List String) (fuel : Nat) (hkeys : keys ≠ [])
    (hpag : inst.pagination = .default ∨ ∃ n, inst.pagination = .maxResults n) :
    (inst.issues server keys fuel).2 = [⟨.keys keys, 0⟩] ∧
    (server (.keys keys) 0 = .ok [] →
      (inst.issues server keys fuel).1 = some (.error .noIssues)) ∧
    (∀ l, l ≠ [] → server (.keys keys) 0 = .ok l →
      (inst.issues server keys fuel).1 = some (.ok l)) ∧
    (∀ e, server (.keys keys) 0 = .error e →
      (inst.issues server keys fuel).1 = some (.error (.rest e))) := by
  rcases hpag with hp | ⟨n, hp⟩ <;>
  · cases hsv : server (.keys keys) 0 with
    | ok l =>
      by_cases hl : l = [] <;>
        simp [JiraInstance.issues, chunk_of_issues, fetchChunk, hkeys, hp, hsv, hl]
    | error e =>
      simp [JiraInstance.issues, chunk_of_issues, fetchChunk, hkeys, hp, hsv]

/-- Claim C6, witness: `Default` policy, keys `["A"]`, a server whose
one call succeeds with zero issues: the single call is
`Keys(["A"])` at offset 0 and the operation fails with
`NoIssuesError`. -/
theorem C6_nonchunked_issues_noIssues_witness :
    (((JiraInstance.mk "h" .anonymous .default).issues (fun _ _ => .ok []) ["A"] 1).2 =
      [⟨.keys ["A"], 0⟩]) ∧
    (((JiraInstance.mk "h" .anonymous .default).issues (fun _ _ => .ok []) ["A"] 1).1 =
      some (.error .noIssues)) := by
  have h := C6_nonchunked_issues_noIssues (JiraInstance.mk "h" .anonymous .default)
    (fun _ _ => .ok []) ["A"] 1 (by decide) (Or.inl rfl)
  exact ⟨h.1, h.2.1 rfl⟩

/-- Claim C7: `search` never returns `NoIssuesError` (its errors are
only propagated transport/decode errors); under a non-`ChunkSize`
policy a successful empty first page is returned as an empty success
with exactly one call, and under `ChunkSize(c)` with `0 < c` a
successful empty first page likewise yields an empty success. -/
theorem C7_search_never_noIssues (inst : JiraInstance) (server : Server) (query : String)
    (fuel : Nat) :
    ((inst.search server query fuel).1 ≠ some (.error .noIssues)) ∧
    ((∀ c, inst.pagination ≠ .chunkSize c) → server (.search query) 0 = .ok [] →
      inst.search server query fuel = (some (.ok []), [⟨.search query, 0⟩])) ∧
    (∀ c, inst.pagination = .chunkSize c → 0 < c → 0 < fuel →
      server (.search query) 0 = .ok [] →
      (inst.search server query fuel).1 = some (.ok [])) := by
  refine ⟨?_, ?_, ?_⟩
  · cases hp : inst.pagination with
    | chunkSize c =>
      have hred : inst.search server query fuel =
          paginatedLoop server (.search query) c fuel 0 [] := by
        simp [JiraInstance.search, paginated_issues, hp]
      rw [hred]
      exact paginatedLoop_ne_noIssues server (.search query) c fuel 0 []
    | default =>
      cases hsv : server (.search query) 0 <;>
        simp [JiraInstance.search, chunk_of_issues, fetchChunk, hp, hsv]
    | maxResults n =>
      cases hsv : server (.search query) 0 <;>
        simp [JiraInstance.search, chunk_of_issues, fetchChunk, hp, hsv]
  · intro hnc hsv
    cases hp : inst.pagination with
    | chunkSize c => exact absurd hp (hnc c)
    | default => simp [JiraInstance.search, chunk_of_issues, fetchChunk, hp, hsv]
    | maxResults n => simp [JiraInstance.search, chunk_of_issues, fetchChunk, hp, hsv]
  · intro c hp hc hfuel hsv
    have hred : inst.search server query fuel =
        paginatedLoop server (.search query) c fuel 0 [] := by
      simp [JiraInstance.search, paginated_issues, hp]
    obtain ⟨f, rfl⟩ : ∃ f, fuel = f + 1 := ⟨fuel - 1, by omega⟩
    rw [hred, paginatedLoop_succ_break server (.search query) c f 0 [] [] hsv (by simpa)]
    simp

/-- Claim C7, witness: `Default` policy, a server whose one call
succeeds with zero matches: `search` returns `Ok([])` from a single
call at offset 0, and in particular not `NoIssuesError`. -/
theorem C7_search_never_noIssues_witness :
    ((JiraInstance.mk "h" .anonymous .default).search (fun _ _ => .ok []) "q" 1 =
      (some (.ok []), [⟨.search "q", 0⟩])) ∧
    (((JiraInstance.mk "h" .anonymous .default).search (fun _ _ => .ok []) "q" 1).1 ≠
      some (.error .noIssues)) := by
  have h := C7_search_never_noIssues (JiraInstance.mk "h" .anonymous .default)
    (fun _ _ => .ok []) "q" 1
  exact ⟨h.2.1 (fun c => by simp) rfl, h.1⟩

/-- Claim C9: For both operations and any pagination policy, a failing
HTTP call aborts the whole operation: if the call recorded at
position `i` of the operation's trace fails on the server, it is the
last call issued (no further call follows it) and the operation's
result is exactly that propagated error — no partially accumulated
issue list is returned. -/
theorem C9_failed_call_aborts (inst : JiraInstance) (server : Server)
    (keys : List String) (query : String) (fuel i : Nat) (e : Nat) :
    (∀ call, (inst.issues server keys fuel).2.get? i = some call →
      server call.method call.offset = .error e →
      i + 1 = (inst.issues server keys fuel).2.length ∧
      (inst.issues server keys fuel).1 = some (.error (.rest e))) ∧
    (∀ call, (inst.search server query fuel).2.get? i = some call →
      server call.method call.offset = .error e →
      i + 1 = (inst.search server query fuel).2.length ∧
      (inst.search server query fuel).1 = some (.error (.rest e))) := by
  constructor
  · intro call hget hcall
    by_cases hk : keys = []
    · subst hk
      simp [JiraInstance.issues] at hget
    · cases hp : inst.pagination with
      | chunkSize c =>
        have hred : inst.issues server keys fuel =
            paginatedLoop server (.keys keys) c fuel 0 [] := by
          simp [JiraInstance.issues, paginated_issues, hp, hk]
        rw [hred] at hget ⊢
        exact paginatedLoop_error_last server (.keys keys) c fuel 0 [] i call e hget hcall
      | default =>
        have h2 : (inst.issues server keys fuel).2 = [⟨.keys keys, 0⟩] := by
          cases hsv : server (.keys keys) 0 with
          | ok l =>
            by_cases hl : l = [] <;>
              simp [JiraInstance.issues, chunk_of_issues, fetchChunk, hk, hp, hsv, hl]
          | error e' =>
            simp [JiraInstance.issues, chunk_of_issues, fetchChunk, hk, hp, hsv]
        rw [h2] at hget ⊢
        obtain ⟨rfl, rfl⟩ := singleton_get?_eq _ _ _ hget
        refine ⟨by simp, ?_⟩
        simp [JiraInstance.issues, chunk_of_issues, fetchChunk, hk, hp] at hcall ⊢
        simp [hcall]
      | maxResults n =>
        have h2 : (inst.issues server keys fuel).2 = [⟨.keys keys, 0⟩] := by
          cases hsv : server (.keys keys) 0 with
          | ok l =>
            by_cases hl : l = [] <;>
              simp [JiraInstance.issues, chunk_of_issues, fetchChunk, hk, hp, hsv, hl]
          | error e' =>
            simp [JiraInstance.issues, chunk_of_issues, fetchChunk, hk, hp, hsv]
        rw [h2] at hget ⊢
        obtain ⟨rfl, rfl⟩ := singleton_get?_eq _ _ _ hget
        refine ⟨by simp, ?_⟩
        simp [JiraInstance.issues, chunk_of_issues, fetchChunk, hk, hp] at hcall ⊢
        simp [hcall]
  · intro call hget hcall
    cases hp : inst.pagination with
    | chunkSize c =>
      have hred : inst.search server query fuel =
          paginatedLoop server (.search query) c fuel 0 [] := by
        simp [JiraInstance.search, paginated_issues, hp]
      rw [hred] at hget ⊢
      exact paginatedLoop_error_last server (.search query) c fuel 0 [] i call e hget hcall
    | default =>
      have h2 : (inst.search server query fuel).2 = [⟨.search query, 0⟩] := by
        cases hsv : server (.search query) 0 <;>
          simp [JiraInstance.search, chunk_of_issues, fetchChunk, hp, hsv]
      rw [h2] at hget ⊢
      obtain ⟨rfl, rfl⟩ := singleton_get?_eq _ _ _ hget
      refine ⟨by simp, ?_⟩
      simp [JiraInstance.search, chunk_of_issues, fetchChunk, hp] at hcall ⊢
      simp [hcall]
    | maxResults n =>
      have h2 : (inst.search server query fuel).2 = [⟨.search query, 0⟩] := by
        cases hsv : server (.search query) 0 <;>
          simp [JiraInstance.search, chunk_of_issues, fetchChunk, hp, hsv]
      rw [h2] at hget ⊢
      obtain ⟨rfl, rfl⟩ := singleton_get?_eq _ _ _ hget
      refine ⟨by simp, ?_⟩
      simp [JiraInstance.search, chunk_of_issues, fetchChunk, hp] at hcall ⊢
      simp [hcall]

/-- Claim C4: Under `ChunkSize(c)` with `c > 0`, a `search` against a
server that answers with pages of sizes `[c, c, c, k]` (`k < c`) at
offsets `0, c, 2c, 3c` makes exactly those 4 calls in that order,
stops at the first page smaller than `c` without issuing a further
call, and returns the `3c + k` accumulated issues in call order. -/
theorem C4_search_chunked_four_pages (host : String) (auth : Auth) (query : String)
    (c k fuel : Nat) (hc : 0 < c) (hk : k < c) (hfuel : 4 ≤ fuel) :
    ((JiraInstance.mk host auth (.chunkSize c)).search
        (fun _ off => if off = 3 * c then .ok (List.replicate k ⟨0⟩)
          else .ok (List.replicate c ⟨0⟩)) query fuel =
      (some (.ok (List.replicate (3 * c + k) ⟨0⟩)),
        [⟨.search query, 0⟩, ⟨.search query, c⟩,
          ⟨.search query, 2 * c⟩, ⟨.search query, 3 * c⟩])) ∧
    (∀ (srv : Server) (i : Nat) (call : Call) (page : List Issue),
      ((JiraInstance.mk host auth (.chunkSize c)).search srv query fuel).2.get? i =
          some call →
      srv (.search query) call.offset = .ok page → page.length < c →
      i + 1 = ((JiraInstance.mk host auth (.chunkSize c)).search srv query fuel).2.length) := by
  refine ⟨?_, ?_⟩
  case refine_2 =>
    intro srv i call page hget hpage hshort
    have hred2 : (JiraInstance.mk host auth (.chunkSize c)).search srv query fuel =
        paginatedLoop srv (.search query) c fuel 0 [] := by
      simp [JiraInstance.search, paginated_issues]
    rw [hred2] at hget ⊢
    exact paginatedLoop_short_page_last srv (.search query) c fuel 0 [] i call page
      hget hpage hshort
  set server : Server :=
    (fun _ off => if off = 3 * c then .ok (List.replicate k ⟨0⟩)
      else .ok (List.replicate c ⟨0⟩)) with hsrv
  have hred : (JiraInstance.mk host auth (.chunkSize c)).search server query fuel =
      paginatedLoop server (.search query) c fuel 0 [] := by
    simp [JiraInstance.search, paginated_issues]
  obtain ⟨f, rfl⟩ : ∃ f, fuel = f + 1 + 1 + 1 + 1 := ⟨fuel - 4, by omega⟩
  have h0 : server (.search query) 0 = .ok (List.replicate c (⟨0⟩ : Issue)) := by
    rw [hsrv]
    exact if_neg (by omega)
  have h1 : server (.search query) (0 + c) = .ok (List.replicate c (⟨0⟩ : Issue)) := by
    rw [hsrv]
    exact if_neg (by omega)
  have h2 : server (.search query) (0 + c + c) = .ok (List.replicate c (⟨0⟩ : Issue)) := by
    rw [hsrv]
    exact if_neg (by omega)
  have h3 : server (.search query) (0 + c + c + c) = .ok (List.replicate k (⟨0⟩ : Issue)) := by
    rw [hsrv]
    exact if_pos (by omega)
  have hge : ¬ (List.replicate c (⟨0⟩ : Issue)).length < c := by simp
  have hlt : (List.replicate k (⟨0⟩ : Issue)).length < c := by simpa
  rw [hred,
    paginatedLoop_succ_cont server (.search query) c (f + 1 + 1 + 1) 0 []
      (List.replicate c (⟨0⟩ : Issue)) h0 hge,
    paginatedLoop_succ_cont server (.search query) c (f + 1 + 1) (0 + c)
      ([] ++ List.replicate c (⟨0⟩ : Issue)) (List.replicate c (⟨0⟩ : Issue)) h1 hge,
    paginatedLoop_succ_cont server (.search query) c (f + 1) (0 + c + c)
      ([] ++ List.replicate c (⟨0⟩ : Issue) ++ List.replicate c (⟨0⟩ : Issue))
      (List.replicate c (⟨0⟩ : Issue)) h2 hge,
    paginatedLoop_succ_break server (.search query) c f (0 + c + c + c)
      ([] ++ List.replicate c (⟨0⟩ : Issue) ++ List.replicate c (⟨0⟩ : Issue)
        ++ List.replicate c (⟨0⟩ : Issue))
      (List.replicate k (⟨0⟩ : Issue)) h3 hlt]
  have hsum : 3 * c + k = c + (c + (c + k)) := by ring
  have hoff3 : 0 + c + c + c = 3 * c := by ring
  have hoff2 : 0 + c + c = 2 * c := by ring
  have hoff1 : 0 + c = c := by ring
  rw [hsum, hoff3, hoff2, hoff1, List.replicate_add, List.replicate_add, List.replicate_add]
  simp [List.append_assoc]
  omega

/-- Claim C4, witness: The four-page run at `c = 2`, `k = 1`,
`fuel = 5`: four calls at offsets 0, 2, 4, 6 and seven issues back. -/
theorem C4_search_chunked_four_pages_witness :
    (JiraInstance.mk "h" .anonymous (.chunkSize 2)).search
        (fun _ off => if off = 3 * 2 then .ok (List.replicate 1 ⟨0⟩)
          else .ok (List.replicate 2 ⟨0⟩)) "q" 5 =
      (some (.ok (List.replicate (3 * 2 + 1) ⟨0⟩)),
        [⟨.search "q", 0⟩, ⟨.search "q", 2⟩,
          ⟨.search "q", 2 * 2⟩, ⟨.search "q", 3 * 2⟩]) :=
  (C4_search_chunked_four_pages "h" .anonymous "q" 2 1 5 (by decide) (by decide)
    (by decide)).1

/-- Claim C9, witness: `Default` policy, a server failing every call
with transport error 7: for both `issues` (keys `["A"]`) and `search`
(query `"q"`), the failing first call is the only call and the
operation's result is that error. -/
theorem C9_failed_call_aborts_witness :
    (0 + 1 = (((JiraInstance.mk "h" .anonymous .default).issues (fun _ _ => .error 7)
        ["A"] 1).2.length) ∧
      ((JiraInstance.mk "h" .anonymous .default).issues (fun _ _ => .error 7)
        ["A"] 1).1 = some (.error (.rest 7))) ∧
    (0 + 1 = (((JiraInstance.mk "h" .anonymous .default).search (fun _ _ => .error 7)
        "q" 1).2.length) ∧
      ((JiraInstance.mk "h" .anonymous .default).search (fun _ _ => .error 7)
        "q" 1).1 = some (.error (.rest 7))) := by
  have h := C9_failed_call_aborts (JiraInstance.mk "h" .anonymous .default)
    (fun _ _ => .error 7) ["A"] "q" 1 0 7
  exact ⟨h.1 ⟨.keys ["A"], 0⟩ rfl rfl, h.2 ⟨.search "q", 0⟩ rfl rfl⟩

/-- Claim C10, witness: The amended statement at `ChunkSize(2)`, keys
`["A"]`, fuel 3, with a server answering every call `Ok([])`. -/
theorem C10_chunked_issues_never_noIssues_witness :
    (((JiraInstance.mk "h" .anonymous (.chunkSize 2)).issues (fun _ _ => .ok [])
        ["A"] 3).1 ≠ some (.error .noIssues)) ∧
    (((JiraInstance.mk "h" .anonymous (.chunkSize 2)).issues (fun _ _ => .ok [])
        ["A"] 3).1 = some (.ok [])) := by
  have h := C10_chunked_issues_never_noIssues (JiraInstance.mk "h" .anonymous (.chunkSize 2))
    (fun _ _ => .ok []) ["A"] 3 2 rfl
  exact ⟨h.1, h.2 (by decide) (by decide) (by decide) rfl⟩

end JiraQuery
